import Mathlib

/-!
Verification of the `simple-window` layout/constraint engine.

The TypeScript source is shallowly embedded: JS numbers are modelled as
rationals (`ℚ`), imperative sequences of `if` statements become chains of
shadowing `let` bindings in the same order as the source, and `Math.round`
is modelled as floor of `q + 1/2` (JS rounds half toward positive
infinity).  The stateful parts (the layout restore map and the window
collection registry) are modelled with explicit state records and
association lists that copy the `Map` semantics used by the code
(`set` replaces in place or appends, `delete` removes the unique entry).
-/

/-- `Rect {x, y, width, height}` from `src/rect.ts`. -/
structure Rect where
  x : ℚ
  y : ℚ
  width : ℚ
  height : ℚ
deriving DecidableEq, Repr

/-- `Edges {top, right, bottom, left}` from `src/rect.ts`. -/
structure Edges where
  top : ℚ
  right : ℚ
  bottom : ℚ
  left : ℚ
deriving DecidableEq, Repr

/-- `Vector2 {x, y}` from `src/rect.ts`. -/
structure Vector2 where
  x : ℚ
  y : ℚ
deriving DecidableEq, Repr

/-- `SizeConstraints` from `src/rect.ts` (the optional suggestion fields are
kept as options; they are only read by `initializeRect`, which no claim
exercises directly). -/
structure SizeConstraints where
  minWidth : ℚ
  minHeight : ℚ
  maxWidth : ℚ
  maxHeight : ℚ
  suggestionWidth : Option ℚ := none
  suggestionHeight : Option ℚ := none
deriving DecidableEq, Repr

/-- `ConstraintEdges` from `src/layouts/constraint.ts`. -/
structure ConstraintEdges where
  left : ℚ
  right : ℚ
  top : ℚ
  bottom : ℚ
  width : ℚ
  height : ℚ
deriving DecidableEq, Repr

/-- `constraintRectToConstraints` from `src/layouts/constraint.ts`. -/
def constraintRectToConstraints (rect : Rect) : ConstraintEdges :=
  { left := rect.x
    right := rect.x + rect.width
    top := rect.y
    bottom := rect.y + rect.height
    width := rect.width
    height := rect.height }

namespace RectLayout

/-- `RectLayout.move` from `src/layouts/base.ts`: additive translation; the
`direction` argument is accepted but unused by the base layout. -/
def move (rect : Rect) (offset : Vector2) (_direction : Vector2) : Rect :=
  { x := rect.x + offset.x
    y := rect.y + offset.y
    width := rect.width
    height := rect.height }

/-- `RectLayout.resize` from `src/layouts/base.ts`. -/
def resize (rect : Rect) (edges : Edges) : Rect :=
  { x := rect.x + edges.left
    y := rect.y + edges.top
    width := rect.width - edges.left + edges.right
    height := rect.height - edges.top + edges.bottom }

/-- `RectLayout.fitRect` from `src/layouts/base.ts`: the identity. -/
def fitRect (rect : Rect) : Rect := rect

end RectLayout

namespace ConstraintRectLayout

/-- First `if` of the `left` clamp in `ConstraintRectLayout.resize`:
`if (rect.width - newEdges.left < minWidth) newEdges.left = rect.width - minWidth`. -/
def clampLeftMin (sc : SizeConstraints) (rect : Rect) (l : ℚ) : ℚ :=
  if rect.width - l < sc.minWidth then rect.width - sc.minWidth else l

/-- Second `if` of the `left` clamp in `ConstraintRectLayout.resize`. -/
def clampLeftMax (sc : SizeConstraints) (rect : Rect) (l : ℚ) : ℚ :=
  if rect.width - l > sc.maxWidth then rect.width - sc.maxWidth else l

/-- First `if` of the `right` clamp in `ConstraintRectLayout.resize`. -/
def clampRightMin (sc : SizeConstraints) (rect : Rect) (r : ℚ) : ℚ :=
  if rect.width + r < sc.minWidth then sc.minWidth - rect.width else r

/-- Second `if` of the `right` clamp in `ConstraintRectLayout.resize`. -/
def clampRightMax (sc : SizeConstraints) (rect : Rect) (r : ℚ) : ℚ :=
  if rect.width + r > sc.maxWidth then sc.maxWidth - rect.width else r

/-- First `if` of the `top` clamp in `ConstraintRectLayout.resize`.  Note:
the source reads `newEdges.top = rect.height - minWidth` — `minWidth`, not
`minHeight` — which is exactly what this definition reproduces. -/
def clampTopMin (sc : SizeConstraints) (rect : Rect) (t : ℚ) : ℚ :=
  if rect.height - t < sc.minHeight then rect.height - sc.minWidth else t

/-- Second `if` of the `top` clamp in `ConstraintRectLayout.resize`. -/
def clampTopMax (sc : SizeConstraints) (rect : Rect) (t : ℚ) : ℚ :=
  if rect.height - t > sc.maxHeight then rect.height - sc.maxHeight else t

/-- First `if` of the `bottom` clamp in `ConstraintRectLayout.resize`. -/
def clampBottomMin (sc : SizeConstraints) (rect : Rect) (b : ℚ) : ℚ :=
  if rect.height + b < sc.minHeight then sc.minHeight - rect.height else b

/-- Second `if` of the `bottom` clamp in `ConstraintRectLayout.resize`. -/
def clampBottomMax (sc : SizeConstraints) (rect : Rect) (b : ℚ) : ℚ :=
  if rect.height + b > sc.maxHeight then sc.maxHeight - rect.height else b

/-- Phase 1 of `ConstraintRectLayout.resize`: the per-edge size-constraint
clamp applied to the cloned `newEdges`, each pair of `if`s in source order. -/
def clampResizeEdges (sc : SizeConstraints) (rect : Rect) (edges : Edges) : Edges :=
  { top := clampTopMax sc rect (clampTopMin sc rect edges.top)
    right := clampRightMax sc rect (clampRightMin sc rect edges.right)
    bottom := clampBottomMax sc rect (clampBottomMin sc rect edges.bottom)
    left := clampLeftMax sc rect (clampLeftMin sc rect edges.left) }

/-- `ConstraintRectLayout.move` from `src/layouts/constraint.ts`: the base
translation followed by the direction-aware bound clamp (negative direction:
leading edge first, then trailing; otherwise trailing first, then leading). -/
def move (c : ConstraintEdges) (rect : Rect) (offset : Vector2) (direction : Vector2) : Rect :=
  let r := RectLayout.move rect offset direction
  let x := r.x
  let y := r.y
  let width := r.width
  let height := r.height
  let x :=
    if direction.x < 0 then
      let x := if x < c.left then x - (x - c.left) else x
      if x + width > c.right then x - ((x + width) - c.right) else x
    else
      let x := if x + width > c.right then x - ((x + width) - c.right) else x
      if x < c.left then x - (x - c.left) else x
  let y :=
    if direction.y < 0 then
      let y := if y < c.top then y - (y - c.top) else y
      if y + height > c.bottom then y - ((y + height) - c.bottom) else y
    else
      let y := if y + height > c.bottom then y - ((y + height) - c.bottom) else y
      if y < c.top then y - (y - c.top) else y
  { x := x, y := y, width := width, height := height }

/-- `ConstraintRectLayout.resize` from `src/layouts/constraint.ts`: phase 1
clamps the edge deltas against the size constraints, then the base resize is
applied, then phase 2 clamps the result against the constraint bound
(shrinking the corresponding dimension).  The `let` chain mirrors the
source's statement order; in the `x < left` branch the source updates
`width` using the pre-clamp `x` and then sets `x` to `left`. -/
def resize (sc : SizeConstraints) (c : ConstraintEdges) (rect : Rect) (edges : Edges) : Rect :=
  let newEdges := clampResizeEdges sc rect edges
  let r := RectLayout.resize rect newEdges
  let x := r.x
  let y := r.y
  let width := r.width
  let height := r.height
  let width := if x < c.left then width - (c.left - x) else width
  let x := if x < c.left then x - (x - c.left) else x
  let width := if x + width > c.right then width - ((x + width) - c.right) else width
  let height := if y < c.top then height - (c.top - y) else height
  let y := if y < c.top then y - (y - c.top) else y
  let height := if y + height > c.bottom then height - ((y + height) - c.bottom) else height
  { x := x, y := y, width := width, height := height }

/-- `ConstraintRectLayout.fitRect` from `src/layouts/constraint.ts`: shrink
the size to the constraint's size, then clamp the position so all four edges
lie within the bound. -/
def fitRect (c : ConstraintEdges) (rect : Rect) : Rect :=
  let width := if rect.width > c.width then rect.width - (rect.width - c.width) else rect.width
  let height := if rect.height > c.height then rect.height - (rect.height - c.height) else rect.height
  let x := if rect.x < c.left then rect.x - (rect.x - c.left) else rect.x
  let y := if rect.y < c.top then rect.y - (rect.y - c.top) else rect.y
  let x := if x + width > c.right then x - ((x + width) - c.right) else x
  let y := if y + height > c.bottom then y - ((y + height) - c.bottom) else y
  { x := x, y := y, width := width, height := height }

end ConstraintRectLayout

/-- `Math.round` on rationals: JS rounds half toward positive infinity. -/
def jsRound (q : ℚ) : ℤ := ⌊q + 1 / 2⌋

namespace ConstraintGridRectLayout

/-- `ConstraintGridRectLayout.move` from `src/layouts/constraint-grid.ts`:
the pixel offset is divided by the cell width/height, rounded, and forwarded
to the constraint layout's `move`. -/
def move (colWidth rowHeight : ℚ) (c : ConstraintEdges) (rect : Rect)
    (offset : Vector2) (direction : Vector2) : Rect :=
  ConstraintRectLayout.move c rect
    { x := (jsRound (offset.x / colWidth) : ℚ), y := (jsRound (offset.y / rowHeight) : ℚ) }
    direction

/-- `ConstraintGridRectLayout.resize` from `src/layouts/constraint-grid.ts`:
each pixel edge delta is divided by the cell width/height, rounded, and
forwarded to the constraint layout's `resize`. -/
def resize (colWidth rowHeight : ℚ) (sc : SizeConstraints) (c : ConstraintEdges)
    (rect : Rect) (edges : Edges) : Rect :=
  ConstraintRectLayout.resize sc c rect
    { top := (jsRound (edges.top / rowHeight) : ℚ)
      right := (jsRound (edges.right / colWidth) : ℚ)
      bottom := (jsRound (edges.bottom / rowHeight) : ℚ)
      left := (jsRound (edges.left / colWidth) : ℚ) }

/-- `ConstraintGridRectLayout.fitRect` from `src/layouts/constraint-grid.ts`:
destructures the rect and rebuilds it unchanged. -/
def fitRect (rect : Rect) : Rect :=
  { x := rect.x, y := rect.y, width := rect.width, height := rect.height }

end ConstraintGridRectLayout

/-- A rect lies inside a constraint bound: all four edges within the bound. -/
def insideC (c : ConstraintEdges) (r : Rect) : Prop :=
  c.left ≤ r.x ∧ c.top ≤ r.y ∧ r.x + r.width ≤ c.right ∧ r.y + r.height ≤ c.bottom

instance (c : ConstraintEdges) (r : Rect) : Decidable (insideC c r) := by
  unfold insideC; infer_instance

/-! ### Association-list model of JS `Map` -/

/-- `Map.set`: replace the value at an existing key in place, otherwise
append a new entry. -/
def mapSet {κ α : Type} [DecidableEq κ] (k : κ) (v : α) : List (κ × α) → List (κ × α)
  | [] => [(k, v)]
  | (k', v') :: t => if k' = k then (k, v) :: t else (k', v') :: mapSet k v t

/-- `Map.delete`: remove the entry with the given key. -/
def mapDelete {κ α : Type} [DecidableEq κ] (k : κ) : List (κ × α) → List (κ × α)
  | [] => []
  | (k', v') :: t => if k' = k then t else (k', v') :: mapDelete k t

/-- `Map.get`: the value at the given key, if present. -/
def mapGet {κ α : Type} [DecidableEq κ] (k : κ) : List (κ × α) → Option α
  | [] => none
  | (k', v') :: t => if k' = k then some v' else mapGet k t

/-- `Map.has`. -/
def mapHas {κ α : Type} [DecidableEq κ] (k : κ) (m : List (κ × α)) : Bool :=
  (mapGet k m).isSome

/-! ### Layout restore memory and layout switching (C7)

The per-layout policy is abstracted to the pieces `RectWindow.setLayout`
reads: the `allowRestore` flag and the `fitRect` / `initializeRect`
functions.  The one-shot stored-rect memory is `storeRect`/`getStoredRect`
from `src/layouts/base.ts`, keyed by window id. -/

/-- The slice of a layout that `setLayout` consults. -/
structure LayoutPolicy where
  allowRestore : Bool
  fitRect : Rect → Rect
  initRect : Nat → Rect

/-- A layout's stored-rect memory (`_storedRects` in `src/layouts/base.ts`). -/
structure LayoutMem where
  stored : List (Nat × Rect)

/-- `RectLayout.storeRect` from `src/layouts/base.ts`: store only when
`allowRestore` is set. -/
def storeRect (p : LayoutPolicy) (m : LayoutMem) (id : Nat) (r : Rect) : LayoutMem :=
  if p.allowRestore then ⟨mapSet id r m.stored⟩ else m

/-- `RectLayout.getStoredRect` from `src/layouts/base.ts`: read-then-clear,
`undefined` when `allowRestore` is unset. -/
def getStoredRect (p : LayoutPolicy) (m : LayoutMem) (id : Nat) : Option Rect × LayoutMem :=
  if p.allowRestore then (mapGet id m.stored, ⟨mapDelete id m.stored⟩) else (none, m)

/-- One `RectWindow.setLayout` pass (`src/unnamed/part_001`): unbind from
`prev` (storing the current rect when `prev.allowRestore`), bind to `next`
(reading `next`'s stored rect when `next.allowRestore`), then `onReLayout`:
the stored rect, if any, is passed through `next.fitRect`; otherwise the
rect is re-derived from `next.initializeRect` and fitted.  Returns the new
window rect and the two updated memories (prev's, then next's). -/
def setLayoutStep (prev next : LayoutPolicy) (prevM nextM : LayoutMem)
    (id : Nat) (rect : Rect) : Rect × LayoutMem × LayoutMem :=
  let prevM' := storeRect prev prevM id rect
  let sug := (getStoredRect next nextM id).1
  let nextM' := (getStoredRect next nextM id).2
  let newRect :=
    match sug with
    | some s => next.fitRect s
    | none => next.fitRect (next.initRect id)
  (newRect, prevM', nextM')

/-- Switching a window from layout `A` to `B` and back to `A`
(two `setLayout` passes); result is the window's final rect. -/
def switchRoundTrip (A B : LayoutPolicy) (mA mB : LayoutMem) (id : Nat) (r : Rect) : Rect :=
  let s1 := setLayoutStep A B mA mB id r
  let s2 := setLayoutStep B A s1.2.2 s1.2.1 id s1.1
  s2.1

/-! ### Window collection registry (C8, C9)

`RectWindowCollection` from `src/window.ts` / `src/unnamed/part_005`.
Window objects are modelled by a record carrying a model-level handle `h`
standing for JS object identity (the code filters the priority list by
`!==`), plus the readonly `id` and `key` fields. -/

/-- A window as the registry sees it: identity handle, numeric id,
optional string key. -/
structure Win where
  h : Nat
  wid : Int
  wkey : Option String
deriving DecidableEq, Repr

/-- A `windows` map key: either a numeric id or a string alias. -/
abbrev MapKey := Sum Int String

/-- The value of the JS expression `key || id`: a `Map` key that falls back
to the id when the key is absent or the empty string (falsy). -/
def keyOrId (key : Option String) (id : Int) : MapKey :=
  match key with
  | some k => if k = "" then Sum.inl id else Sum.inr k
  | none => Sum.inl id

/-- The value of the JS expression `window.key ?? window.id` used by
`transfer`: falls back to the id only when the key is absent. -/
def transferKey (w : Win) : MapKey :=
  match w.wkey with
  | some k => Sum.inr k
  | none => Sum.inl w.wid

/-- The map key captured by the `destroy` listener installed in
`newWindow`: `key || id` over the window's own fields. -/
def capturedKey (w : Win) : MapKey := keyOrId w.wkey w.wid

/-- One collection's registry state: the id/key map (`windows`), the
priority list (`windowsPriority`, front = lowest z), and a fresh-handle
counter standing for the allocator of new JS objects. -/
structure CollState where
  wmap : List (MapKey × Win)
  prio : List Win
  nextH : Nat
deriving DecidableEq, Repr

/-- A collection with no windows. -/
def emptyColl : CollState := ⟨[], [], 0⟩

/-- The id allocated by `newWindow`:
`windowsPriority.reduce((id, w) => Math.max(w.id, id), -1) + 1`. -/
def newWindowId (prio : List Win) : Int :=
  (prio.foldl (fun acc w => max w.wid acc) (-1)) + 1

/-- `RectWindowCollection.newWindow`: allocate the id, create the window,
`windows.set(key || id, window)`, push onto the priority list. -/
def newWindow (key : Option String) (s : CollState) : CollState × Win :=
  let id := newWindowId s.prio
  let w : Win := ⟨s.nextH, id, key⟩
  (⟨mapSet (keyOrId key id) w s.wmap, s.prio ++ [w], s.nextH + 1⟩, w)

/-- The collection's `destroy` listener for a window it created:
`windows.delete(key || id)` with the creation-time key and id, and
filter the window out of the priority list by object identity. -/
def destroyWindow (w : Win) (s : CollState) : CollState :=
  ⟨mapDelete (capturedKey w) s.wmap, s.prio.filter (fun x => x.h ≠ w.h), s.nextH⟩

/-- The collection's `tap` listener: move the window to the end of the
priority list (`filter(item => item !== window).concat(window)`). -/
def tapWindow (w : Win) (s : CollState) : CollState :=
  ⟨s.wmap, s.prio.filter (fun x => x.h ≠ w.h) ++ [w], s.nextH⟩

/-- The source half of `RectWindowCollection.transfer`: guarded by
`windows.has(window.id)`; on success `windows.delete(window.id)` and filter
the priority list. -/
def transferOut (w : Win) (s : CollState) : CollState :=
  if mapHas (Sum.inl w.wid) s.wmap then
    ⟨mapDelete (Sum.inl w.wid) s.wmap, s.prio.filter (fun x => x.h ≠ w.h), s.nextH⟩
  else s

/-- The target half of `RectWindowCollection.transfer`:
`windows.set(window.key ?? window.id, window)` and push onto the priority
list.  The handle counter absorbs the incoming handle so model handles
stay globally unique, mirroring JS object-identity uniqueness. -/
def transferIn (w : Win) (s : CollState) : CollState :=
  ⟨mapSet (transferKey w) w s.wmap, s.prio ++ [w], max s.nextH (w.h + 1)⟩

/-- The registry invariant of the spec: the priority list is a permutation
of the map's values (compared by object identity, i.e. handles), the
priority list holds no duplicate objects, map keys are unique, and all
member handles are below the allocator counter. -/
def collInv (s : CollState) : Prop :=
  (s.wmap.map (fun p => p.2.h)).Perm (s.prio.map Win.h) ∧
  (s.prio.map Win.h).Nodup ∧
  (s.wmap.map Prod.fst).Nodup ∧
  (∀ w ∈ s.prio, w.h < s.nextH)

instance (s : CollState) : Decidable (collInv s) := by
  unfold collInv; infer_instance

/-! ### Helper lemmas for the resize clamp (phase 1) -/

namespace ConstraintRectLayout

/-- The two sequential `left` clamps leave `rect.width - left` within
`[minWidth, maxWidth]` whenever `minWidth ≤ maxWidth`. -/
theorem clampLeft_bounds (sc : SizeConstraints) (rect : Rect) (l : ℚ)
    (h : sc.minWidth ≤ sc.maxWidth) :
    sc.minWidth ≤ rect.width - clampLeftMax sc rect (clampLeftMin sc rect l) ∧
    rect.width - clampLeftMax sc rect (clampLeftMin sc rect l) ≤ sc.maxWidth := by
  unfold clampLeftMax clampLeftMin
  split_ifs <;> constructor <;> linarith

/-- The two sequential `right` clamps leave `rect.width + right` within
`[minWidth, maxWidth]` whenever `minWidth ≤ maxWidth`. -/
theorem clampRight_bounds (sc : SizeConstraints) (rect : Rect) (r : ℚ)
    (h : sc.minWidth ≤ sc.maxWidth) :
    sc.minWidth ≤ rect.width + clampRightMax sc rect (clampRightMin sc rect r) ∧
    rect.width + clampRightMax sc rect (clampRightMin sc rect r) ≤ sc.maxWidth := by
  unfold clampRightMax clampRightMin
  split_ifs <;> constructor <;> linarith

/-- The two sequential `top` clamps leave `rect.height - top` within
`[minHeight, maxHeight]` — but only because of the extra assumption
`minHeight ≤ minWidth ≤ maxHeight`, needed since the minimum branch clamps
against `minWidth`. -/
theorem clampTop_bounds (sc : SizeConstraints) (rect : Rect) (t : ℚ)
    (h : sc.minHeight ≤ sc.maxHeight) (h1 : sc.minHeight ≤ sc.minWidth)
    (h2 : sc.minWidth ≤ sc.maxHeight) :
    sc.minHeight ≤ rect.height - clampTopMax sc rect (clampTopMin sc rect t) ∧
    rect.height - clampTopMax sc rect (clampTopMin sc rect t) ≤ sc.maxHeight := by
  unfold clampTopMax clampTopMin
  split_ifs <;> constructor <;> linarith

/-- The two sequential `bottom` clamps leave `rect.height + bottom` within
`[minHeight, maxHeight]` whenever `minHeight ≤ maxHeight`. -/
theorem clampBottom_bounds (sc : SizeConstraints) (rect : Rect) (b : ℚ)
    (h : sc.minHeight ≤ sc.maxHeight) :
    sc.minHeight ≤ rect.height + clampBottomMax sc rect (clampBottomMin sc rect b) ∧
    rect.height + clampBottomMax sc rect (clampBottomMin sc rect b) ≤ sc.maxHeight := by
  unfold clampBottomMax clampBottomMin
  split_ifs <;> constructor <;> linarith

/-- A zero `left` delta survives the clamp when the starting width already
satisfies the size constraints. -/
theorem clampLeft_zero (sc : SizeConstraints) (rect : Rect)
    (h1 : sc.minWidth ≤ rect.width) (h2 : rect.width ≤ sc.maxWidth) :
    clampLeftMax sc rect (clampLeftMin sc rect 0) = 0 := by
  unfold clampLeftMax clampLeftMin
  split_ifs <;> linarith

/-- A zero `right` delta survives the clamp when the starting width already
satisfies the size constraints. -/
theorem clampRight_zero (sc : SizeConstraints) (rect : Rect)
    (h1 : sc.minWidth ≤ rect.width) (h2 : rect.width ≤ sc.maxWidth) :
    clampRightMax sc rect (clampRightMin sc rect 0) = 0 := by
  unfold clampRightMax clampRightMin
  split_ifs <;> linarith

/-- A zero `top` delta survives the clamp when the starting height already
satisfies the size constraints. -/
theorem clampTop_zero (sc : SizeConstraints) (rect : Rect)
    (h1 : sc.minHeight ≤ rect.height) (h2 : rect.height ≤ sc.maxHeight) :
    clampTopMax sc rect (clampTopMin sc rect 0) = 0 := by
  unfold clampTopMax clampTopMin
  split_ifs <;> linarith

/-- A zero `bottom` delta survives the clamp when the starting height
already satisfies the size constraints. -/
theorem clampBottom_zero (sc : SizeConstraints) (rect : Rect)
    (h1 : sc.minHeight ≤ rect.height) (h2 : rect.height ≤ sc.maxHeight) :
    clampBottomMax sc rect (clampBottomMin sc rect 0) = 0 := by
  unfold clampBottomMax clampBottomMin
  split_ifs <;> linarith

end ConstraintRectLayout

namespace ConstraintRectLayout

/-- Width half of the amended C1: when at most one horizontal edge delta is
nonzero, the starting width satisfies the size constraints, and the rect
lies inside the constraint bound, the resized width stays within
`[minWidth, maxWidth]`. -/
theorem resize_width_bounds (sc : SizeConstraints) (c : ConstraintEdges)
    (rect : Rect) (edges : Edges)
    (hww : sc.minWidth ≤ sc.maxWidth)
    (hw1 : sc.minWidth ≤ rect.width) (hw2 : rect.width ≤ sc.maxWidth)
    (hin : insideC c rect)
    (hx : edges.left = 0 ∨ edges.right = 0) :
    sc.minWidth ≤ (resize sc c rect edges).width ∧
    (resize sc c rect edges).width ≤ sc.maxWidth := by
  obtain ⟨hi1, hi2, hi3, hi4⟩ := hin
  rcases hx with hx | hx
  · have hL0 : clampLeftMax sc rect (clampLeftMin sc rect edges.left) = 0 := by
      rw [hx]; exact clampLeft_zero sc rect hw1 hw2
    have hB := clampRight_bounds sc rect edges.right hww
    simp only [resize, clampResizeEdges, RectLayout.resize, hL0]
    split_ifs <;> constructor <;> linarith [hB.1, hB.2]
  · have hR0 : clampRightMax sc rect (clampRightMin sc rect edges.right) = 0 := by
      rw [hx]; exact clampRight_zero sc rect hw1 hw2
    have hA := clampLeft_bounds sc rect edges.left hww
    simp only [resize, clampResizeEdges, RectLayout.resize, hR0]
    split_ifs <;> constructor <;> linarith [hA.1, hA.2]

/-- Height half of the amended C1; the cross-axis hypotheses
`minHeight ≤ minWidth ≤ maxHeight` are forced by the top-edge minimum
branch clamping against `minWidth`. -/
theorem resize_height_bounds (sc : SizeConstraints) (c : ConstraintEdges)
    (rect : Rect) (edges : Edges)
    (hhh : sc.minHeight ≤ sc.maxHeight)
    (hwh1 : sc.minHeight ≤ sc.minWidth) (hwh2 : sc.minWidth ≤ sc.maxHeight)
    (hh1 : sc.minHeight ≤ rect.height) (hh2 : rect.height ≤ sc.maxHeight)
    (hin : insideC c rect)
    (hy : edges.top = 0 ∨ edges.bottom = 0) :
    sc.minHeight ≤ (resize sc c rect edges).height ∧
    (resize sc c rect edges).height ≤ sc.maxHeight := by
  obtain ⟨hi1, hi2, hi3, hi4⟩ := hin
  rcases hy with hy | hy
  · have hT0 : clampTopMax sc rect (clampTopMin sc rect edges.top) = 0 := by
      rw [hy]; exact clampTop_zero sc rect hh1 hh2
    have hB := clampBottom_bounds sc rect edges.bottom hhh
    simp only [resize, clampResizeEdges, RectLayout.resize, hT0]
    split_ifs <;> constructor <;> linarith [hB.1, hB.2]
  · have hB0 : clampBottomMax sc rect (clampBottomMin sc rect edges.bottom) = 0 := by
      rw [hy]; exact clampBottom_zero sc rect hh1 hh2
    have hA := clampTop_bounds sc rect edges.top hhh hwh1 hwh2
    simp only [resize, clampResizeEdges, RectLayout.resize, hB0]
    split_ifs <;> constructor <;> linarith [hA.1, hA.2]

end ConstraintRectLayout

namespace ConstraintRectLayout

/-- `fitRect` leaves a rect that already lies inside the constraint bound
unchanged (the bound is derived from a rect, so its stored `width`/`height`
equal `right - left` / `bottom - top`). -/
theorem fitRect_of_insideC (cr r : Rect)
    (h : insideC (constraintRectToConstraints cr) r) :
    fitRect (constraintRectToConstraints cr) r = r := by
  obtain ⟨h1, h2, h3, h4⟩ := h
  simp only [constraintRectToConstraints] at h1 h2 h3 h4
  simp only [fitRect, constraintRectToConstraints]
  split_ifs <;> first | rfl | (exfalso; linarith)

/-- `fitRect` always lands inside the constraint bound. -/
theorem fitRect_insideC (cr r : Rect) :
    insideC (constraintRectToConstraints cr) (fitRect (constraintRectToConstraints cr) r) := by
  simp only [fitRect, constraintRectToConstraints, insideC]
  split_ifs <;> refine ⟨by linarith, by linarith, by linarith, by linarith⟩

end ConstraintRectLayout

/-! ### Claim theorems: geometry (C1 – C6, C10) -/

/-- Claim C1, counterexample: with size constraints `[200, 300]` on both
axes and a generous bound, widening by 40 on each horizontal edge passes
both per-edge clamps yet yields width 330 > 300, so resize does not keep
the width within `[minWidth, maxWidth]` for every edge-delta set. -/
theorem constraint_resize_size_bounds_cex :
    ¬ ((200 : ℚ) ≤ (ConstraintRectLayout.resize
          ⟨200, 200, 300, 300, none, none⟩
          (constraintRectToConstraints ⟨0, 0, 1000, 1000⟩)
          ⟨100, 100, 250, 250⟩
          { top := 0, right := 40, bottom := 0, left := -40 }).width ∧
        (ConstraintRectLayout.resize
          ⟨200, 200, 300, 300, none, none⟩
          (constraintRectToConstraints ⟨0, 0, 1000, 1000⟩)
          ⟨100, 100, 250, 250⟩
          { top := 0, right := 40, bottom := 0, left := -40 }).width ≤ 300) := by
  norm_num [ConstraintRectLayout.resize, ConstraintRectLayout.clampResizeEdges,
    ConstraintRectLayout.clampTopMax, ConstraintRectLayout.clampTopMin,
    ConstraintRectLayout.clampRightMax, ConstraintRectLayout.clampRightMin,
    ConstraintRectLayout.clampBottomMax, ConstraintRectLayout.clampBottomMin,
    ConstraintRectLayout.clampLeftMax, ConstraintRectLayout.clampLeftMin,
    RectLayout.resize, constraintRectToConstraints]

/-- Claim C1, amended: the resized width stays within
`[minWidth, maxWidth]` and the height within `[minHeight, maxHeight]`
provided the size constraints are well-formed (`min ≤ max` per axis plus
`minHeight ≤ minWidth ≤ maxHeight`, forced by the top-edge clamp reading
`minWidth`), the starting rect already satisfies the size constraints and
lies inside the constraint bound, and on each axis at most one edge delta
is nonzero (as produced by each individual drag handle). -/
theorem constraint_resize_size_bounds (sc : SizeConstraints) (c : ConstraintEdges)
    (rect : Rect) (edges : Edges)
    (hww : sc.minWidth ≤ sc.maxWidth) (hhh : sc.minHeight ≤ sc.maxHeight)
    (hwh1 : sc.minHeight ≤ sc.minWidth) (hwh2 : sc.minWidth ≤ sc.maxHeight)
    (hw1 : sc.minWidth ≤ rect.width) (hw2 : rect.width ≤ sc.maxWidth)
    (hh1 : sc.minHeight ≤ rect.height) (hh2 : rect.height ≤ sc.maxHeight)
    (hin : insideC c rect)
    (hx : edges.left = 0 ∨ edges.right = 0)
    (hy : edges.top = 0 ∨ edges.bottom = 0) :
    sc.minWidth ≤ (ConstraintRectLayout.resize sc c rect edges).width ∧
    (ConstraintRectLayout.resize sc c rect edges).width ≤ sc.maxWidth ∧
    sc.minHeight ≤ (ConstraintRectLayout.resize sc c rect edges).height ∧
    (ConstraintRectLayout.resize sc c rect edges).height ≤ sc.maxHeight := by
  obtain ⟨hwl, hwu⟩ := ConstraintRectLayout.resize_width_bounds sc c rect edges hww hw1 hw2 hin hx
  obtain ⟨hhl, hhu⟩ := ConstraintRectLayout.resize_height_bounds sc c rect edges hhh hwh1 hwh2 hh1 hh2 hin hy
  exact ⟨hwl, hwu, hhl, hhu⟩

/-- Witness for the amended C1 at a concrete resize. -/
theorem constraint_resize_size_bounds_witness :
    ((⟨0, 40, 0, 0⟩ : Edges).left = 0 ∨ (⟨0, 40, 0, 0⟩ : Edges).right = 0) ∧
    ((200 : ℚ) ≤ (ConstraintRectLayout.resize
        ⟨200, 200, 300, 300, none, none⟩
        (constraintRectToConstraints ⟨0, 0, 1000, 1000⟩)
        ⟨100, 100, 250, 250⟩ ⟨0, 40, 0, 0⟩).width ∧
      (ConstraintRectLayout.resize
        ⟨200, 200, 300, 300, none, none⟩
        (constraintRectToConstraints ⟨0, 0, 1000, 1000⟩)
        ⟨100, 100, 250, 250⟩ ⟨0, 40, 0, 0⟩).width ≤ 300 ∧
      (200 : ℚ) ≤ (ConstraintRectLayout.resize
        ⟨200, 200, 300, 300, none, none⟩
        (constraintRectToConstraints ⟨0, 0, 1000, 1000⟩)
        ⟨100, 100, 250, 250⟩ ⟨0, 40, 0, 0⟩).height ∧
      (ConstraintRectLayout.resize
        ⟨200, 200, 300, 300, none, none⟩
        (constraintRectToConstraints ⟨0, 0, 1000, 1000⟩)
        ⟨100, 100, 250, 250⟩ ⟨0, 40, 0, 0⟩).height ≤ 300) :=
  ⟨Or.inl rfl,
   constraint_resize_size_bounds _ _ _ _ (by norm_num) (by norm_num) (by norm_num) (by norm_num)
     (by norm_num) (by norm_num) (by norm_num) (by norm_num)
     (by norm_num [insideC, constraintRectToConstraints])
     (Or.inl rfl) (Or.inl rfl)⟩

/-- Claim C2, counterexample: a rect wider than the bound (width 200 in a
100-wide bound) ends with its left edge outside the bound after a
negative-direction move, so the "edges never exceed the bound" guarantee
does not hold for every rect. -/
theorem constraint_move_within_bound_cex :
    ¬ ((constraintRectToConstraints ⟨0, 0, 100, 100⟩).left ≤
          (ConstraintRectLayout.move (constraintRectToConstraints ⟨0, 0, 100, 100⟩)
            ⟨0, 0, 200, 50⟩ ⟨0, 0⟩ ⟨-1, 0⟩).x ∧
        (ConstraintRectLayout.move (constraintRectToConstraints ⟨0, 0, 100, 100⟩)
            ⟨0, 0, 200, 50⟩ ⟨0, 0⟩ ⟨-1, 0⟩).x +
          (ConstraintRectLayout.move (constraintRectToConstraints ⟨0, 0, 100, 100⟩)
            ⟨0, 0, 200, 50⟩ ⟨0, 0⟩ ⟨-1, 0⟩).width ≤
          (constraintRectToConstraints ⟨0, 0, 100, 100⟩).right ∧
        (constraintRectToConstraints ⟨0, 0, 100, 100⟩).top ≤
          (ConstraintRectLayout.move (constraintRectToConstraints ⟨0, 0, 100, 100⟩)
            ⟨0, 0, 200, 50⟩ ⟨0, 0⟩ ⟨-1, 0⟩).y ∧
        (ConstraintRectLayout.move (constraintRectToConstraints ⟨0, 0, 100, 100⟩)
            ⟨0, 0, 200, 50⟩ ⟨0, 0⟩ ⟨-1, 0⟩).y +
          (ConstraintRectLayout.move (constraintRectToConstraints ⟨0, 0, 100, 100⟩)
            ⟨0, 0, 200, 50⟩ ⟨0, 0⟩ ⟨-1, 0⟩).height ≤
          (constraintRectToConstraints ⟨0, 0, 100, 100⟩).bottom) := by
  norm_num [ConstraintRectLayout.move, RectLayout.move, constraintRectToConstraints]

/-- Claim C2, amended: for every rect that fits inside the bound
(`width ≤ right - left`, `height ≤ bottom - top`), every offset of any
magnitude and every direction sign combination, the moved rect's edges all
lie within the constraint bound; the clamps are applied in the
direction-dependent order the source prescribes. -/
theorem constraint_move_within_bound (c : ConstraintEdges) (rect : Rect)
    (offset direction : Vector2)
    (hw : rect.width ≤ c.right - c.left) (hh : rect.height ≤ c.bottom - c.top) :
    c.left ≤ (ConstraintRectLayout.move c rect offset direction).x ∧
    (ConstraintRectLayout.move c rect offset direction).x +
      (ConstraintRectLayout.move c rect offset direction).width ≤ c.right ∧
    c.top ≤ (ConstraintRectLayout.move c rect offset direction).y ∧
    (ConstraintRectLayout.move c rect offset direction).y +
      (ConstraintRectLayout.move c rect offset direction).height ≤ c.bottom := by
  simp only [ConstraintRectLayout.move, RectLayout.move]
  split_ifs <;> refine ⟨by linarith, by linarith, by linarith, by linarith⟩

/-- Witness for the amended C2 at a concrete oversized drag. -/
theorem constraint_move_within_bound_witness :
    ((⟨0, 0, 50, 50⟩ : Rect).width ≤
        (constraintRectToConstraints ⟨0, 0, 100, 100⟩).right -
          (constraintRectToConstraints ⟨0, 0, 100, 100⟩).left) ∧
    ((constraintRectToConstraints ⟨0, 0, 100, 100⟩).left ≤
        (ConstraintRectLayout.move (constraintRectToConstraints ⟨0, 0, 100, 100⟩)
          ⟨0, 0, 50, 50⟩ ⟨500, -500⟩ ⟨1, -1⟩).x ∧
      (ConstraintRectLayout.move (constraintRectToConstraints ⟨0, 0, 100, 100⟩)
          ⟨0, 0, 50, 50⟩ ⟨500, -500⟩ ⟨1, -1⟩).x +
        (ConstraintRectLayout.move (constraintRectToConstraints ⟨0, 0, 100, 100⟩)
          ⟨0, 0, 50, 50⟩ ⟨500, -500⟩ ⟨1, -1⟩).width ≤
        (constraintRectToConstraints ⟨0, 0, 100, 100⟩).right ∧
      (constraintRectToConstraints ⟨0, 0, 100, 100⟩).top ≤
        (ConstraintRectLayout.move (constraintRectToConstraints ⟨0, 0, 100, 100⟩)
          ⟨0, 0, 50, 50⟩ ⟨500, -500⟩ ⟨1, -1⟩).y ∧
      (ConstraintRectLayout.move (constraintRectToConstraints ⟨0, 0, 100, 100⟩)
          ⟨0, 0, 50, 50⟩ ⟨500, -500⟩ ⟨1, -1⟩).y +
        (ConstraintRectLayout.move (constraintRectToConstraints ⟨0, 0, 100, 100⟩)
          ⟨0, 0, 50, 50⟩ ⟨500, -500⟩ ⟨1, -1⟩).height ≤
        (constraintRectToConstraints ⟨0, 0, 100, 100⟩).bottom) :=
  ⟨by norm_num [constraintRectToConstraints],
   constraint_move_within_bound _ _ _ _
     (by norm_num [constraintRectToConstraints])
     (by norm_num [constraintRectToConstraints])⟩

/-- Claim C3: whenever `rect.height - edges.top < minHeight`, the top-edge
minimum branch sets the top delta to `rect.height - minWidth` — clamping
against `minWidth` rather than `minHeight` — so the height that branch
produces is `minWidth`; the full phase-1 clamp keeps that value whenever
`minWidth ≤ maxHeight`. -/
theorem resize_top_min_branch_minWidth (sc : SizeConstraints) (rect : Rect)
    (edges : Edges) (h : rect.height - edges.top < sc.minHeight) :
    ConstraintRectLayout.clampTopMin sc rect edges.top = rect.height - sc.minWidth ∧
    rect.height - ConstraintRectLayout.clampTopMin sc rect edges.top = sc.minWidth ∧
    (sc.minWidth ≤ sc.maxHeight →
      (ConstraintRectLayout.clampResizeEdges sc rect edges).top = rect.height - sc.minWidth) := by
  have h1 : ConstraintRectLayout.clampTopMin sc rect edges.top = rect.height - sc.minWidth := by
    unfold ConstraintRectLayout.clampTopMin
    rw [if_pos h]
  refine ⟨h1, by rw [h1]; ring, fun hmw => ?_⟩
  simp only [ConstraintRectLayout.clampResizeEdges, ConstraintRectLayout.clampTopMax, h1]
  rw [if_neg (by linarith)]

/-- Witness for C3: height 250, top delta 100, `minHeight = 200` triggers
the branch; the clamped delta is `250 - minWidth = 250 - 180 = 70`. -/
theorem resize_top_min_branch_minWidth_witness :
    ((⟨0, 0, 250, 250⟩ : Rect).height - (⟨100, 0, 0, 0⟩ : Edges).top <
        (⟨180, 200, 300, 300, none, none⟩ : SizeConstraints).minHeight) ∧
    ConstraintRectLayout.clampTopMin ⟨180, 200, 300, 300, none, none⟩
        ⟨0, 0, 250, 250⟩ (⟨100, 0, 0, 0⟩ : Edges).top =
      (⟨0, 0, 250, 250⟩ : Rect).height - 180 :=
  ⟨by norm_num,
   (resize_top_min_branch_minWidth ⟨180, 200, 300, 300, none, none⟩
     ⟨0, 0, 250, 250⟩ ⟨100, 0, 0, 0⟩ (by norm_num)).1⟩

/-- Claim C4: the constraint layout's `fitRect` is an idempotent
projection — it fixes every rect already inside the bound, and applying it
twice equals applying it once, for every rect whatsoever. -/
theorem constraint_fitRect_idempotent_projection (cr r : Rect) :
    (insideC (constraintRectToConstraints cr) r →
      ConstraintRectLayout.fitRect (constraintRectToConstraints cr) r = r) ∧
    ConstraintRectLayout.fitRect (constraintRectToConstraints cr)
        (ConstraintRectLayout.fitRect (constraintRectToConstraints cr) r) =
      ConstraintRectLayout.fitRect (constraintRectToConstraints cr) r :=
  ⟨ConstraintRectLayout.fitRect_of_insideC cr r,
   ConstraintRectLayout.fitRect_of_insideC cr _ (ConstraintRectLayout.fitRect_insideC cr r)⟩

/-- Witness for C4 at a concrete in-bounds rect. -/
theorem constraint_fitRect_idempotent_projection_witness :
    insideC (constraintRectToConstraints ⟨0, 0, 100, 100⟩) ⟨10, 10, 50, 50⟩ ∧
    ConstraintRectLayout.fitRect (constraintRectToConstraints ⟨0, 0, 100, 100⟩)
        ⟨10, 10, 50, 50⟩ = ⟨10, 10, 50, 50⟩ :=
  ⟨by norm_num [insideC, constraintRectToConstraints],
   (constraint_fitRect_idempotent_projection ⟨0, 0, 100, 100⟩ ⟨10, 10, 50, 50⟩).1
     (by norm_num [insideC, constraintRectToConstraints])⟩

/-- Claim C5, counterexample: the base resize computes
`x = rect.x + edges.left` (here `10 + 5 = 15`), not `rect.x - edges.left`
(`10 - 5 = 5`) as the claim states. -/
theorem base_resize_semantics_cex :
    ¬ ((RectLayout.resize ⟨10, 20, 100, 100⟩ ⟨3, 7, 4, 5⟩).x = (10 : ℚ) - 5) := by
  norm_num [RectLayout.resize]

/-- Claim C5, amended: the base resize adds the left/top edge delta to the
origin — `x = rect.x + edges.left`, `y = rect.y + edges.top` — while the
size formulas match the claim:
`width = rect.width + edges.right - edges.left` and analogously the
height. -/
theorem base_resize_semantics (rect : Rect) (edges : Edges) :
    (RectLayout.resize rect edges).x = rect.x + edges.left ∧
    (RectLayout.resize rect edges).y = rect.y + edges.top ∧
    (RectLayout.resize rect edges).width = rect.width + edges.right - edges.left ∧
    (RectLayout.resize rect edges).height = rect.height + edges.bottom - edges.top := by
  refine ⟨rfl, rfl, ?_, ?_⟩ <;> simp [RectLayout.resize] <;> ring

/-- Claim C6: the grid layout forwards `move`/`resize` to the constraint
layout with every pixel delta quantized to `round(delta / cellSize)` —
cell width for x/left/right, cell height for y/top/bottom — and in
particular a 45-pixel delta with 100-pixel cells quantizes to 0 cells. -/
theorem grid_deltas_quantized (colWidth rowHeight : ℚ) (sc : SizeConstraints)
    (c : ConstraintEdges) (rect : Rect) (offset direction : Vector2) (edges : Edges) :
    ConstraintGridRectLayout.move colWidth rowHeight c rect offset direction =
      ConstraintRectLayout.move c rect
        ⟨(jsRound (offset.x / colWidth) : ℚ), (jsRound (offset.y / rowHeight) : ℚ)⟩
        direction ∧
    ConstraintGridRectLayout.resize colWidth rowHeight sc c rect edges =
      ConstraintRectLayout.resize sc c rect
        ⟨(jsRound (edges.top / rowHeight) : ℚ), (jsRound (edges.right / colWidth) : ℚ),
         (jsRound (edges.bottom / rowHeight) : ℚ), (jsRound (edges.left / colWidth) : ℚ)⟩ ∧
    jsRound ((45 : ℚ) / 100) = 0 :=
  ⟨rfl, rfl, by norm_num [jsRound]⟩

/-- Claim C10: the grid layout's `fitRect` is the identity on every rect —
including rects outside the grid's bounds — unlike the constraint layout's
`fitRect` it overrides, which reconciles the same rect to a different
one. -/
theorem grid_fitRect_identity :
    (∀ r : Rect, ConstraintGridRectLayout.fitRect r = r) ∧
    ConstraintGridRectLayout.fitRect ⟨-50, -50, 500, 500⟩ = ⟨-50, -50, 500, 500⟩ ∧
    ConstraintRectLayout.fitRect (constraintRectToConstraints ⟨0, 0, 100, 100⟩)
        ⟨-50, -50, 500, 500⟩ ≠ ⟨-50, -50, 500, 500⟩ :=
  ⟨fun _ => rfl, rfl,
   by norm_num [ConstraintRectLayout.fitRect, constraintRectToConstraints, Rect.mk.injEq]⟩

/-! ### Map lemmas -/

/-- Reading back the key just written. -/
theorem mapGet_mapSet_self {κ α : Type} [DecidableEq κ] (k : κ) (v : α)
    (m : List (κ × α)) : mapGet k (mapSet k v m) = some v := by
  induction m with
  | nil => simp [mapSet, mapGet]
  | cons p t ih =>
    obtain ⟨k', v'⟩ := p
    by_cases hk : k' = k
    · simp [mapSet, mapGet, hk]
    · simp [mapSet, mapGet, hk, ih]

/-! ### Claim theorems: layout switching (C7) -/

/-- Claim C7, counterexample: with layout A a constraint layout over the
bound `{0,0,100,100}` and a window whose current rect `{10,10,500,50}`
exceeds that bound (windows accept caller-supplied rects unfitted),
switching to a plain layout B and back to A yields `A.fitRect` of the
stored rect — `{0,10,100,50}` — not the stored rect itself. -/
theorem switch_layout_restores_rect_cex :
    switchRoundTrip
        ⟨true, ConstraintRectLayout.fitRect (constraintRectToConstraints ⟨0, 0, 100, 100⟩),
          fun _ => ⟨0, 0, 100, 100⟩⟩
        ⟨true, fun r => r, fun _ => ⟨0, 0, 50, 50⟩⟩
        ⟨[]⟩ ⟨[]⟩ 0 ⟨10, 10, 500, 50⟩ ≠ ⟨10, 10, 500, 50⟩ := by
  norm_num [switchRoundTrip, setLayoutStep, storeRect, getStoredRect, mapSet, mapGet,
    mapDelete, ConstraintRectLayout.fitRect, constraintRectToConstraints, Rect.mk.injEq]

/-- Claim C7, amended: switching a window from a layout A with
`allowRestore = true` to any layout B and back to A restores the stored
rect *passed through A's `fitRect`* (the stored rect is read through the
one-shot read-then-clear memory and `initializeRect` is not consulted);
the rect is restored exactly whenever it is a fixpoint of A's `fitRect`,
as every already-fitted rect is. -/
theorem switch_layout_restores_rect (A B : LayoutPolicy) (mA mB : LayoutMem)
    (id : Nat) (r : Rect) (h : A.allowRestore = true) :
    switchRoundTrip A B mA mB id r = A.fitRect r ∧
    (A.fitRect r = r → switchRoundTrip A B mA mB id r = r) := by
  have h1 : switchRoundTrip A B mA mB id r = A.fitRect r := by
    simp [switchRoundTrip, setLayoutStep, storeRect, getStoredRect, h, mapGet_mapSet_self]
  exact ⟨h1, fun hfix => by rw [h1, hfix]⟩

/-- Witness for the amended C7 at concrete layouts and rect. -/
theorem switch_layout_restores_rect_witness :
    (⟨true, fun r => r, fun _ => ⟨0, 0, 100, 100⟩⟩ : LayoutPolicy).allowRestore = true ∧
    switchRoundTrip ⟨true, fun r => r, fun _ => ⟨0, 0, 100, 100⟩⟩
        ⟨false, fun r => r, fun _ => ⟨0, 0, 100, 100⟩⟩ ⟨[]⟩ ⟨[]⟩ 0 ⟨10, 10, 50, 50⟩ =
      (⟨true, fun r => r, fun _ => ⟨0, 0, 100, 100⟩⟩ : LayoutPolicy).fitRect
        ⟨10, 10, 50, 50⟩ :=
  ⟨rfl,
   (switch_layout_restores_rect ⟨true, fun r => r, fun _ => ⟨0, 0, 100, 100⟩⟩
     ⟨false, fun r => r, fun _ => ⟨0, 0, 100, 100⟩⟩ ⟨[]⟩ ⟨[]⟩ 0 ⟨10, 10, 50, 50⟩ rfl).1⟩

/-! ### Claim theorems: id allocation (C8) -/

/-- The fold underlying `newWindow`'s id allocation never drops below its
initial accumulator. -/
theorem foldl_max_init_le (l : List Win) (a : Int) :
    a ≤ l.foldl (fun acc w => max w.wid acc) a := by
  induction l generalizing a with
  | nil => exact le_refl a
  | cons w t ih => exact le_trans (le_max_right w.wid a) (ih (max w.wid a))

/-- Every member's id is bounded by the fold underlying `newWindow`'s id
allocation. -/
theorem mem_wid_le_foldl_max (l : List Win) (a : Int) (w : Win) (hw : w ∈ l) :
    w.wid ≤ l.foldl (fun acc w => max w.wid acc) a := by
  induction l generalizing a with
  | nil => cases hw
  | cons v t ih =>
    rcases List.mem_cons.1 hw with h | h
    · subst h
      exact le_trans (le_max_left w.wid a) (foldl_max_init_le t (max w.wid a))
    · exact ih (max v.wid a) h

/-- Claim C8: `newWindow` allocates `max of current ids + 1` with `-1` as
the base for an empty collection, so the new id strictly dominates every
current member; in the cited scenario — create A, B, C (ids 0, 1, 2),
destroy B, create D — D's id is 3, strictly greater than every live id. -/
theorem newWindow_id_allocation :
    (∀ prio : List Win,
      newWindowId prio = (prio.foldl (fun acc w => max w.wid acc) (-1)) + 1) ∧
    (∀ (prio : List Win) (w : Win), w ∈ prio → w.wid < newWindowId prio) ∧
    ((newWindow none (destroyWindow
        (newWindow none (newWindow none emptyColl).1).2
        (newWindow none (newWindow none (newWindow none emptyColl).1).1).1)).2.wid = 3 ∧
      ∀ w ∈ (destroyWindow
        (newWindow none (newWindow none emptyColl).1).2
        (newWindow none (newWindow none (newWindow none emptyColl).1).1).1).prio,
        w.wid < 3) :=
  ⟨fun _ => rfl,
   fun prio w hw =>
     lt_of_le_of_lt (mem_wid_le_foldl_max prio (-1) w hw) (lt_add_one _),
   by decide, by decide⟩

/-- Witness for C8's universally quantified part at a concrete window
list. -/
theorem newWindow_id_allocation_witness :
    (⟨0, 5, none⟩ : Win) ∈ [(⟨0, 5, none⟩ : Win)] ∧
    (⟨0, 5, none⟩ : Win).wid < newWindowId [(⟨0, 5, none⟩ : Win)] :=
  ⟨by decide, newWindow_id_allocation.2.1 [⟨0, 5, none⟩] ⟨0, 5, none⟩ (by decide)⟩

/-! ### Registry invariant lemmas (C9) -/

/-- A successful `mapGet` exhibits a member pair. -/
theorem mapGet_eq_some_mem {κ α : Type} [DecidableEq κ] {k : κ} {v : α}
    {m : List (κ × α)} (h : mapGet k m = some v) : (k, v) ∈ m := by
  induction m with
  | nil => simp [mapGet] at h
  | cons p t ih =>
    obtain ⟨k', v'⟩ := p
    by_cases hk : k' = k
    · subst hk
      simp [mapGet] at h
      subst h
      exact List.mem_cons_self _ _
    · simp [mapGet, hk] at h
      exact List.mem_cons_of_mem _ (ih h)

/-- Deleting a key whose entry holds window `w` removes exactly `w`'s
handle from the map's value handles, when those handles are distinct. -/
theorem mapDelete_values_h {m : List (MapKey × Win)} {k : MapKey} {w : Win}
    (hget : mapGet k m = some w)
    (hnd : (m.map (fun p => p.2.h)).Nodup) :
    (mapDelete k m).map (fun p => p.2.h) = (m.map (fun p => p.2.h)).erase w.h := by
  induction m with
  | nil => simp [mapGet] at hget
  | cons p t ih =>
    obtain ⟨k', v'⟩ := p
    by_cases hk : k' = k
    · subst hk
      simp [mapGet] at hget
      subst hget
      simp [mapDelete, List.erase_cons_head]
    · simp only [mapGet, if_neg hk] at hget
      have hmem : w.h ∈ t.map (fun p => p.2.h) :=
        List.mem_map.2 ⟨(k, w), mapGet_eq_some_mem hget, rfl⟩
      have hnd' := hnd
      simp only [List.map_cons, List.nodup_cons] at hnd'
      have hne : v'.h ≠ w.h := fun he => hnd'.1 (he ▸ hmem)
      simp only [mapDelete, if_neg hk, List.map_cons, List.erase_cons]
      rw [if_neg (by simp [hne]), ih hget hnd'.2]

/-- `mapDelete` only removes keys. -/
theorem mapDelete_keys_sublist {κ α : Type} [DecidableEq κ] (k : κ)
    (m : List (κ × α)) :
    ((mapDelete k m).map Prod.fst).Sublist (m.map Prod.fst) := by
  induction m with
  | nil => simp [mapDelete]
  | cons p t ih =>
    obtain ⟨k', v'⟩ := p
    by_cases hk : k' = k
    · simp only [mapDelete, if_pos hk, List.map_cons]
      exact List.sublist_cons_self _ _
    · simp only [mapDelete, if_neg hk, List.map_cons]
      exact ih.cons₂ k'

/-- `mapDelete` keeps only values that were present. -/
theorem mapDelete_values_sublist {κ α : Type} [DecidableEq κ] (k : κ)
    (m : List (κ × α)) :
    ((mapDelete k m).map Prod.snd).Sublist (m.map Prod.snd) := by
  induction m with
  | nil => simp [mapDelete]
  | cons p t ih =>
    obtain ⟨k', v'⟩ := p
    by_cases hk : k' = k
    · simp only [mapDelete, if_pos hk, List.map_cons]
      exact List.sublist_cons_self _ _
    · simp only [mapDelete, if_neg hk, List.map_cons]
      exact ih.cons₂ v'

/-- `Map.set` with a fresh key appends. -/
theorem mapSet_of_not_mem_key {κ α : Type} [DecidableEq κ] {k : κ} (v : α)
    {m : List (κ × α)} (hk : k ∉ m.map Prod.fst) :
    mapSet k v m = m ++ [(k, v)] := by
  induction m with
  | nil => rfl
  | cons p t ih =>
    obtain ⟨k', v'⟩ := p
    simp only [List.map_cons, List.mem_cons] at hk
    push_neg at hk
    have hne : ¬ k' = k := fun he => hk.1 he.symm
    simp [mapSet, hne, ih hk.2]

/-- Mapping handles commutes with the identity filter used by the
registry. -/
theorem filter_ne_map_h (l : List Win) (a : Nat) :
    (l.filter (fun x => x.h ≠ a)).map Win.h = (l.map Win.h).filter (fun x => x ≠ a) := by
  induction l with
  | nil => rfl
  | cons w t ih =>
    simp only [List.map_cons, List.filter_cons]
    by_cases hw : w.h = a
    · rw [if_neg (by simp [hw]), if_neg (by simp [hw])]
      exact ih
    · rw [if_pos (by simp [hw]), if_pos (by simp [hw]), List.map_cons, ih]

/-- On duplicate-free lists, filtering one element out equals erasing
it. -/
theorem nodup_filter_ne_eq_erase (l : List Nat) (a : Nat) (hl : l.Nodup) :
    l.filter (fun x => x ≠ a) = l.erase a := by
  induction l with
  | nil => rfl
  | cons b t ih =>
    simp only [List.nodup_cons] at hl
    by_cases hb : b = a
    · subst hb
      rw [List.erase_cons_head]
      simp only [List.filter_cons, decide_eq_true_eq]
      rw [if_neg (by simp)]
      exact List.filter_eq_self.2 fun x hx => by
        simp only [decide_eq_true_eq]
        exact fun he => hl.1 (he ▸ hx)
    · simp only [List.filter_cons, decide_eq_true_eq, if_pos hb, List.erase_cons]
      rw [if_neg (by simp [hb]), ih hl.2]

/-- Removing a map entry that is the window's own, and filtering that
window out of the priority list, preserves the registry invariant. -/
theorem collInv_removeEntry (s : CollState) (k : MapKey) (w : Win)
    (hs : collInv s) (hget : mapGet k s.wmap = some w) :
    collInv ⟨mapDelete k s.wmap, s.prio.filter (fun x => x.h ≠ w.h), s.nextH⟩ := by
  obtain ⟨hperm, hnd, hknd, hbound⟩ := hs
  have hvnd : (s.wmap.map (fun p => p.2.h)).Nodup := hperm.nodup_iff.2 hnd
  have hveq := mapDelete_values_h hget hvnd
  have hpeq : (s.prio.filter (fun x => x.h ≠ w.h)).map Win.h =
      (s.prio.map Win.h).erase w.h := by
    rw [filter_ne_map_h, nodup_filter_ne_eq_erase _ _ hnd]
  refine ⟨?_, ?_, ?_, ?_⟩
  · rw [hveq, hpeq]
    exact hperm.erase w.h
  · rw [hpeq]
    exact hnd.erase w.h
  · exact hknd.sublist (mapDelete_keys_sublist k s.wmap)
  · intro x hx
    exact hbound x (List.mem_of_mem_filter hx)

/-- `newWindow` preserves the registry invariant when its map key
(`key || id`) is not already taken. -/
theorem collInv_newWindow (key : Option String) (s : CollState) (hs : collInv s)
    (hk : keyOrId key (newWindowId s.prio) ∉ s.wmap.map Prod.fst) :
    collInv (newWindow key s).1 := by
  obtain ⟨hperm, hnd, hknd, hbound⟩ := hs
  have hfresh : s.nextH ∉ s.prio.map Win.h := by
    intro hmem
    obtain ⟨x, hx, hxh⟩ := List.mem_map.1 hmem
    exact lt_irrefl _ (hxh ▸ hbound x hx)
  simp only [newWindow, collInv, mapSet_of_not_mem_key _ hk]
  refine ⟨?_, ?_, ?_, ?_⟩
  · simp only [List.map_append]
    exact hperm.append_right _
  · rw [List.map_append, List.nodup_append]
    exact ⟨hnd, List.nodup_singleton _, fun a ha hb => by
      simp only [List.map_cons, List.map_nil, List.mem_singleton] at hb
      exact hfresh (hb ▸ ha)⟩
  · rw [List.map_append, List.nodup_append]
    exact ⟨hknd, List.nodup_singleton _, fun a ha hb => by
      simp only [List.map_cons, List.map_nil, List.mem_singleton] at hb
      exact hk (hb ▸ ha)⟩
  · intro x hx
    rcases List.mem_append.1 hx with h | h
    · exact Nat.lt_succ_of_lt (hbound x h)
    · simp only [List.mem_singleton] at h
      subst h
      exact Nat.lt_succ_self _

/-- Destroying a window whose captured map entry is its own preserves the
registry invariant. -/
theorem collInv_destroyWindow (w : Win) (s : CollState) (hs : collInv s)
    (hget : mapGet (capturedKey w) s.wmap = some w) :
    collInv (destroyWindow w s) :=
  collInv_removeEntry s (capturedKey w) w hs hget

/-- Tapping a current member preserves the registry invariant. -/
theorem collInv_tapWindow (w : Win) (s : CollState) (hs : collInv s)
    (hw : w ∈ s.prio) : collInv (tapWindow w s) := by
  obtain ⟨hperm, hnd, hknd, hbound⟩ := hs
  have hmem : w.h ∈ s.prio.map Win.h := List.mem_map_of_mem _ hw
  have hp2 : ((s.prio.filter (fun x => x.h ≠ w.h)) ++ [w]).map Win.h =
      (s.prio.map Win.h).erase w.h ++ [w.h] := by
    rw [List.map_append, filter_ne_map_h, nodup_filter_ne_eq_erase _ _ hnd]
    rfl
  have hp3 : ((s.prio.map Win.h).erase w.h ++ [w.h]).Perm (s.prio.map Win.h) :=
    (List.perm_append_singleton _ _).trans (List.perm_cons_erase hmem).symm
  simp only [tapWindow, collInv]
  refine ⟨?_, ?_, hknd, ?_⟩
  · rw [hp2]
    exact hperm.trans hp3.symm
  · rw [hp2]
    exact hp3.nodup_iff.2 hnd
  · intro x hx
    rcases List.mem_append.1 hx with h | h
    · exact hbound x (List.mem_of_mem_filter h)
    · simp only [List.mem_singleton] at h
      rw [h]
      exact hbound w hw

/-- Transferring out a window whose id entry in the map is itself
preserves the registry invariant. -/
theorem collInv_transferOut (w : Win) (s : CollState) (hs : collInv s)
    (hget : mapGet (Sum.inl w.wid) s.wmap = some w) :
    collInv (transferOut w s) := by
  have hb : mapHas (Sum.inl w.wid) s.wmap = true := by
    unfold mapHas
    rw [hget]
    rfl
  have he : transferOut w s =
      ⟨mapDelete (Sum.inl w.wid) s.wmap, s.prio.filter (fun x => x.h ≠ w.h), s.nextH⟩ := by
    simp [transferOut, hb]
  rw [he]
  exact collInv_removeEntry s (Sum.inl w.wid) w hs hget

/-- Transferring in a window with a fresh map key and fresh identity
preserves the registry invariant. -/
theorem collInv_transferIn (w : Win) (s : CollState) (hs : collInv s)
    (hk : transferKey w ∉ s.wmap.map Prod.fst)
    (hh : w.h ∉ s.prio.map Win.h) : collInv (transferIn w s) := by
  obtain ⟨hperm, hnd, hknd, hbound⟩ := hs
  simp only [transferIn, collInv, mapSet_of_not_mem_key _ hk]
  refine ⟨?_, ?_, ?_, ?_⟩
  · simp only [List.map_append]
    exact hperm.append_right _
  · rw [List.map_append, List.nodup_append]
    exact ⟨hnd, List.nodup_singleton _, fun a ha hb => by
      simp only [List.map_cons, List.map_nil, List.mem_singleton] at hb
      exact hh (hb ▸ ha)⟩
  · rw [List.map_append, List.nodup_append]
    exact ⟨hknd, List.nodup_singleton _, fun a ha hb => by
      simp only [List.map_cons, List.map_nil, List.mem_singleton] at hb
      exact hk (hb ▸ ha)⟩
  · intro x hx
    rcases List.mem_append.1 hx with h | h
    · exact lt_of_lt_of_le (hbound x h) (le_max_left _ _)
    · simp only [List.mem_singleton] at h
      subst h
      exact lt_of_lt_of_le (Nat.lt_succ_self _) (le_max_right _ _)

/-! ### Claim theorems: registry invariant (C9) -/

/-- Claim C9, counterexample: two `newWindow` calls with the same key
`"a"` are a reachable operation sequence, but afterwards the map holds
only the second window while the priority list holds both, so the
priority list is not a permutation of the map's values. -/
theorem collection_map_prio_permutation_cex :
    ¬ (((newWindow (some "a") (newWindow (some "a") emptyColl).1).1.wmap.map
          (fun p => p.2.h)).Perm
        ((newWindow (some "a") (newWindow (some "a") emptyColl).1).1.prio.map Win.h)) := by
  decide

/-- Claim C9, amended: the permutation invariant between the priority list
and the id/key map's values is preserved by every `newWindow`, destroy,
tap-to-front and transfer step that respects key/identity freshness:
`newWindow`'s map key (`key || id`) is not already present; destroyed and
transferred-out windows are ones whose own map entry still holds them;
tapped windows are current members; a transferred-in window's map key and
object identity are fresh.  (Without these provisos the invariant fails,
e.g. on a duplicate `newWindow` key.) -/
theorem collection_map_prio_permutation (s : CollState) (hs : collInv s) :
    (∀ key : Option String,
      keyOrId key (newWindowId s.prio) ∉ s.wmap.map Prod.fst →
        collInv (newWindow key s).1) ∧
    (∀ w : Win, mapGet (capturedKey w) s.wmap = some w →
        collInv (destroyWindow w s)) ∧
    (∀ w : Win, w ∈ s.prio → collInv (tapWindow w s)) ∧
    (∀ w : Win, mapGet (Sum.inl w.wid) s.wmap = some w →
        collInv (transferOut w s)) ∧
    (∀ w : Win, transferKey w ∉ s.wmap.map Prod.fst → w.h ∉ s.prio.map Win.h →
        collInv (transferIn w s)) :=
  ⟨fun key hk => collInv_newWindow key s hs hk,
   fun w hget => collInv_destroyWindow w s hs hget,
   fun w hw => collInv_tapWindow w s hs hw,
   fun w hget => collInv_transferOut w s hs hget,
   fun w hk hh => collInv_transferIn w s hs hk hh⟩

/-- Witness for the amended C9 starting from the empty collection. -/
theorem collection_map_prio_permutation_witness :
    collInv emptyColl ∧ collInv (newWindow (some "a") emptyColl).1 :=
  ⟨by decide,
   (collection_map_prio_permutation emptyColl (by decide)).1 (some "a")
     (by simp [emptyColl])⟩
